import Mathlib

/-!
Verification development for the emmet roster-synchronization tool.

The Python modules under `src/emmet` are shallowly embedded as Lean
functions: pure helpers become Lean functions on `String`/`List`,
spreadsheet cells become an explicit `Option CellValue` model, and the
Keycloak client is modelled as a capability whose behaviour (returned
ids, group resolution, per-call failures) is passed in as parameters.
-/

set_option maxHeartbeats 1000000

namespace Emmet

/-! ### Python string primitives -/

/-- Truthiness of a Python `Optional[str]`: `None` and `""` are falsy. -/
def pyTruthy : Option String → Bool
  | none => false
  | some s => s != ""

/-- Python `str.strip()`: drop whitespace from both ends. -/
def pyStrip (s : String) : String :=
  ⟨((s.data.dropWhile Char.isWhitespace).reverse.dropWhile Char.isWhitespace).reverse⟩

/-- Worker for `pySplit`: accumulates the current token in reverse. -/
def splitWsAux : List Char → List Char → List String
  | [], [] => []
  | [], acc => [⟨acc.reverse⟩]
  | c :: cs, acc =>
    if c.isWhitespace then
      match acc with
      | [] => splitWsAux cs []
      | _ :: _ => (⟨acc.reverse⟩ : String) :: splitWsAux cs []
    else splitWsAux cs (c :: acc)

/-- Python `str.split()` with no arguments: split on whitespace runs,
discarding empty tokens. -/
def pySplit (s : String) : List String := splitWsAux s.data []

/-- Python `str.lower()` (ASCII model). -/
def pyLower (s : String) : String := ⟨s.data.map Char.toLower⟩

/-- Python `needle in hay` substring test on character lists. -/
def containsSub (needle : List Char) : List Char → Bool
  | [] => needle.isEmpty
  | c :: rest => needle.isPrefixOf (c :: rest) || containsSub needle rest

/-! ### Regex shape matchers (translated from the compiled patterns) -/

/-- Character class `[a-zA-Z0-9._%+-]` of the email pattern's local part. -/
def isLocalChar (c : Char) : Bool :=
  c.isAlphanum || c == '.' || c == '_' || c == '%' || c == '+' || c == '-'

/-- Character class `[a-zA-Z0-9.-]` of the email pattern's domain part. -/
def isDomainChar (c : Char) : Bool :=
  c.isAlphanum || c == '.' || c == '-'

/-- Matcher for the domain tail `[a-zA-Z0-9.-]+\.[a-zA-Z]{2,}$`: all
characters in class, and the segment after the last dot is an all-alpha
TLD of length at least two, with a nonempty part before that dot. -/
def emailDomainOk (dom : List Char) : Bool :=
  dom.all isDomainChar &&
    (let t := (dom.reverse.takeWhile (fun c => c != '.')).reverse
     decide (t.length + 2 ≤ dom.length) && decide (2 ≤ t.length) &&
       t.all Char.isAlpha)

/-- `re.match(r"^[a-zA-Z0-9._%+-]+@[a-zA-Z0-9.-]+\.[a-zA-Z]{2,}$", s)`
from `email_detection.py`.  Since `@` is in neither class, the local
part is forced to be the maximal prefix of local-class characters. -/
def isEmailShape (s : String) : Bool :=
  let cs := s.data
  let loc := cs.takeWhile isLocalChar
  match cs.drop loc.length with
  | '@' :: dom => decide (loc ≠ []) && emailDomainOk dom
  | _ => false

/-- `re.match(r"^\s*\S+\s+\S+.*$", s)` from `name_detection.py`.  The
first three pieces are forced maximal (the classes are complementary);
`.*$` accepts exactly when the remainder has no newline except possibly
a single trailing one. -/
def nameShape (s : String) : Bool :=
  let cs1 := s.data.dropWhile Char.isWhitespace
  let tok1 := cs1.takeWhile (fun c => !c.isWhitespace)
  let cs2 := cs1.drop tok1.length
  let ws2 := cs2.takeWhile Char.isWhitespace
  let cs3 := cs2.drop ws2.length
  let tl := cs3.dropWhile (fun c => c != '\n')
  decide (tok1 ≠ []) && decide (ws2 ≠ []) && decide (cs3 ≠ []) &&
    (decide (tl = []) || decide (tl = ['\n']))

/-- `re.match(r"^\d{1,2}\.\d{1,2}\.\d{4}$", s)` from
`date_detection.py` (ASCII digit model): a maximal run of 1-2 digits,
a dot, a maximal run of 1-2 digits, a dot, and exactly 4 digits to the
end of the string. -/
def ddmmyyyyShape (s : String) : Bool :=
  let cs := s.data
  let d1 := cs.takeWhile Char.isDigit
  let r1 := cs.drop d1.length
  let r2 := r1.drop 1
  let d2 := r2.takeWhile Char.isDigit
  let r3 := r2.drop d2.length
  let r4 := r3.drop 1
  decide (r1.headD ' ' = '.') && decide (r3.headD ' ' = '.') &&
    decide (1 ≤ d1.length) && decide (d1.length ≤ 2) &&
    decide (1 ≤ d2.length) && decide (d2.length ≤ 2) &&
    decide (r4.length = 4) && r4.all Char.isDigit

/-! ### Worksheet model

A worksheet is the ordered list of its rows as surfaced by openpyxl:
each row is a list of cells, a cell value being `None`, a string, a
native datetime, or a number. -/

/-- A date-only `datetime.datetime` value as produced by openpyxl for
date-formatted cells. -/
structure PyDateTime where
  year : Nat
  month : Nat
  day : Nat
  deriving DecidableEq, Repr, Inhabited

/-- A non-`None` raw cell value. -/
inductive CellValue where
  | str (s : String)
  | date (d : PyDateTime)
  | num (n : Int)
  deriving DecidableEq, Repr

/-- A cell: `none` models an empty cell (`cell.value is None`). -/
abbrev Cell := Option CellValue

abbrev Row := List Cell

/-- Python truthiness of a raw cell value (`if cell.value:`). -/
def cvTruthy : CellValue → Bool
  | .str s => s != ""
  | .date _ => true
  | .num n => n != 0

/-- Fuelled worker for `natDecimalDigits` (structural recursion so the
kernel can evaluate it). -/
def natDecimalDigitsAux : Nat → Nat → List Char
  | 0, _ => []
  | fuel + 1, n =>
    if n < 10 then [Nat.digitChar n]
    else natDecimalDigitsAux fuel (n / 10) ++ [Nat.digitChar (n % 10)]

/-- Decimal digits of a natural number, most significant first;
models Python's decimal rendering of a nonnegative integer. -/
def natDecimalDigits (n : Nat) : List Char := natDecimalDigitsAux (n + 1) n

/-- Decimal rendering of a natural number. -/
def pyNatRepr (n : Nat) : String := ⟨natDecimalDigits n⟩

/-- `strftime` zero-padded two-digit field (`%d`, `%m`). -/
def pad2 (n : Nat) : String :=
  if n < 10 then ⟨['0', Nat.digitChar n]⟩ else pyNatRepr n

/-- `value.strftime("%d.%m.%Y")` from `excel_parsing.py`. -/
def formatDDMMYYYY (d : PyDateTime) : String :=
  pad2 d.day ++ "." ++ pad2 d.month ++ "." ++ pyNatRepr d.year

/-- Python `str(value)` for a raw cell value (dates render as
`datetime` does, numbers in decimal). -/
def pyStr : CellValue → String
  | .str s => s
  | .date d =>
    pad2 d.year ++ "-" ++ pad2 d.month ++ "-" ++ pad2 d.day ++ " 00:00:00"
  | .num n => toString n

/-- Rows yielded by `ws.iter_rows(min_row=hdr+1,
max_row=min(hdr+20, ws.max_row or hdr+1))`: the sample of up to 20
data rows immediately after the header row. -/
def sampledRows (ws : List Row) (headerRowNum : Nat) : List Row :=
  let m := headerRowNum + 1
  let M := min (m + 19) (max ws.length m)
  (ws.drop (m - 1)).take (M + 1 - m)

/-! ### Column detectors (`utils/column_detection/`) -/

/-- Column indices (0-based, offset by `i`) of the cells of one row
satisfying the detector predicate, in left-to-right order. -/
def rowMatchCols (pred : Nat → Cell → Bool) : Row → Nat → List Nat
  | [], _ => []
  | cell :: rest, i =>
    if pred i cell then i :: rowMatchCols pred rest (i + 1)
    else rowMatchCols pred rest (i + 1)

/-- Column indices of all matching cells of the sampled rows, in the
row-major scan order of the nested `for` loops. -/
def matchSeq (pred : Nat → Cell → Bool) (rows : List Row) : List Nat :=
  rows.foldr (fun row acc => rowMatchCols pred row 0 ++ acc) []

/-- `counts[k] = counts.get(k, 0) + 1` on a Python dict modelled as an
insertion-ordered association list. -/
def bump : List (Nat × Nat) → Nat → List (Nat × Nat)
  | [], k => [(k, 1)]
  | (k', v) :: rest, k =>
    if k' = k then (k', v + 1) :: rest else (k', v) :: bump rest k

/-- The per-column match-count dict after scanning the whole sample. -/
def toCounts (seq : List Nat) : List (Nat × Nat) := seq.foldl bump []

/-- `max(d, key=lambda k: d[k])` over an insertion-ordered dict: the
first key (in insertion order) attaining the maximal value; `none` on
the empty dict (the detectors' `if counts:` guard). -/
def maxKeyFirst : List (Nat × Nat) → Option Nat
  | [] => none
  | kv :: rest =>
    some (rest.foldl (fun best p => if best.2 < p.2 then p else best) kv).1

/-- The cell test of `detect_email_column`: a truthy string cell whose
stripped text matches the email pattern. -/
def emailCellMatch : Cell → Bool
  | some (.str s) => s != "" && isEmailShape (pyStrip s)
  | _ => false

/-- The cell test of `detect_name_column`: a truthy string cell whose
stripped text has two or more whitespace-separated words. -/
def nameCellMatch : Cell → Bool
  | some (.str s) => s != "" && nameShape (pyStrip s)
  | _ => false

/-- Scan order of email-matching cells (`email_detection.py`). -/
def emailMatchSeq (ws : List Row) (headerRowNum : Nat) : List Nat :=
  matchSeq (fun _ cell => emailCellMatch cell) (sampledRows ws headerRowNum)

/-- `detect_email_column` from `email_detection.py` (the `header`
argument is only used for logging and is omitted). -/
def detect_email_column (ws : List Row) (headerRowNum : Nat) : Option Nat :=
  maxKeyFirst (toCounts (emailMatchSeq ws headerRowNum))

/-- Scan order of name-matching cells, skipping the email column
(`name_detection.py`). -/
def nameMatchSeq (ws : List Row) (emailColIdx : Option Nat)
    (headerRowNum : Nat) : List Nat :=
  matchSeq (fun i cell => decide (some i ≠ emailColIdx) && nameCellMatch cell)
    (sampledRows ws headerRowNum)

/-- `detect_name_column` from `name_detection.py`. -/
def detect_name_column (ws : List Row) (emailColIdx : Option Nat)
    (headerRowNum : Nat) : Option Nat :=
  maxKeyFirst (toCounts (nameMatchSeq ws emailColIdx headerRowNum))

/-- The cell test of `detect_date_columns`: a truthy value that is a
string matching the date pattern, or a native datetime (`hasattr
strftime`). -/
def dateCellMatch : Cell → Bool
  | some (.str s) => s != "" && ddmmyyyyShape (pyStrip s)
  | some (.date _) => true
  | _ => false

/-- Insertion sort on naturals (models Python `sorted`). -/
def insertSorted (x : Nat) : List Nat → List Nat
  | [] => [x]
  | y :: rest => if x ≤ y then x :: y :: rest else y :: insertSorted x rest

/-- Ascending sort (models Python `sorted`). -/
def sortNat : List Nat → List Nat
  | [] => []
  | x :: rest => insertSorted x (sortNat rest)

/-- `detect_date_columns` from `date_detection.py`: the first two
date-bearing column indices in ascending order. -/
def detect_date_columns (ws : List Row) (skip : List Nat)
    (headerRowNum : Nat) : Option Nat × Option Nat :=
  let seq := matchSeq
    (fun i cell => decide (i ∉ skip) && dateCellMatch cell)
    (sampledRows ws headerRowNum)
  let cols := sortNat ((toCounts seq).map Prod.fst)
  (cols.get? 0, cols.get? 1)

/-- The string of one header cell, `str(cell.value)` with `""` for
empty cells. -/
def cellHeaderStr : Cell → String
  | none => ""
  | some cv => pyStr cv

/-- `detect_header_row` from `header_detection.py`: first row among
rows 1..min(10, max_row) containing "bricklink" (case-insensitively) in
some cell, else row 1. -/
def detect_header_row (ws : List Row) : Nat :=
  let hit := (List.range' 1 (min 10 (max ws.length 1))).find? fun r =>
    (ws.getD (r - 1) []).any fun cell =>
      let v := cellHeaderStr cell
      v != "" && containsSub "bricklink".data (pyLower v).data
  match hit with
  | some r => r
  | none => 1

/-- `detect_column_by_name` from `generic_detection.py`: first header
cell containing the search term case-insensitively. -/
def detect_column_by_name (header : List String) (term : String) :
    Option Nat :=
  (header.enum.find? fun p =>
    p.2 != "" && containsSub (pyLower term).data (pyLower p.2).data).map
    Prod.fst

/-! ### Name parsing (`utils/name_parsing.py`) -/

/-- `parse_name_field` from `name_parsing.py`. -/
def parse_name_field (name : String) : Option String × Option String :=
  if name = "" then (none, none)
  else
    match pySplit (pyStrip name) with
    | [] => (none, none)
    | [t] => (some t, none)
    | t :: u :: rest =>
      (some t, some ((u :: rest).getLast (List.cons_ne_nil u rest)))

/-! ### Row extraction and roster loading (`utils/excel_parsing.py`) -/

/-- The roster user record.  The `types.py` revision under `src/`
declares only username/email/firstName/lastName; the optional
attribute fields are used by `sync.py` and `excel_parsing.py` and are
modelled from the spec: optional free-text attributes `fullName`,
`hometown`, `effectiveDate`, `expirationDate`, `discord`, `bricklink`,
each either absent or a string. -/
structure User where
  username : String
  email : Option String := none
  firstName : Option String := none
  lastName : Option String := none
  fullName : Option String := none
  hometown : Option String := none
  effectiveDate : Option String := none
  expirationDate : Option String := none
  discord : Option String := none
  bricklink : Option String := none
  deriving DecidableEq, Repr, Inhabited

/-- `should_skip_row`: some cell holds a string containing "eronnut"
case-insensitively. -/
def should_skip_row (row : Row) : Bool :=
  row.any fun cell =>
    match cell with
    | some (.str s) => s != "" && containsSub "eronnut".data (pyLower s).data
    | _ => false

/-- Extraction of a plain text field: `str(cell.value).strip()` when
the column was detected, lies within the row and the cell value is
truthy; `None` otherwise. -/
def extractStrField (row : Row) (colIdx : Option Nat) : Option String :=
  match colIdx with
  | none => none
  | some i =>
    if i < row.length then
      match row.getD i none with
      | some cv => if cvTruthy cv then some (pyStrip (pyStr cv)) else none
      | none => none
    else none

/-- Extraction of a date field (`excel_parsing.py` lines 136-159): a
string cell is stripped and used as-is, a native datetime is formatted
as `dd.mm.yyyy`, and any other value yields `None`. -/
def extractDateField (row : Row) (colIdx : Option Nat) : Option String :=
  match colIdx with
  | none => none
  | some i =>
    if i < row.length then
      match row.getD i none with
      | some (.str s) => if s != "" then some (pyStrip s) else none
      | some (.date d) => some (formatDDMMYYYY d)
      | some (.num _) => none
      | none => none
    else none

/-- The detected column layout used by the row loop. -/
structure DetectedCols where
  emailIdx : Nat
  nameIdx : Option Nat
  hometownIdx : Option Nat
  effIdx : Option Nat
  expIdx : Option Nat
  discordIdx : Option Nat
  bricklinkIdx : Option Nat
  deriving Repr

/-- The body of the row loop of `parse_excel_users`: `none` when the
row is skipped (resignation marker, missing email, or a record that
fails construction-time validation), `some user` otherwise.
`validate` models the pydantic construction check, an external
library; `uuid` is the generated username. -/
def extractRowUser (cols : DetectedCols) (validate : User → Bool)
    (uuid : String) (row : Row) : Option User :=
  if should_skip_row row then none
  else
    match extractStrField row (some cols.emailIdx) with
    | none => none
    | some email =>
      if email = "" then none
      else
        let fullName := extractStrField row cols.nameIdx
        let names := match fullName with
          | some f => parse_name_field f
          | none => (none, none)
        let user : User := {
          username := uuid
          email := some email
          firstName := names.1
          lastName := names.2
          fullName := fullName
          hometown := extractStrField row cols.hometownIdx
          effectiveDate := extractDateField row cols.effIdx
          expirationDate := extractDateField row cols.expIdx
          discord := extractStrField row cols.discordIdx
          bricklink := extractStrField row cols.bricklinkIdx }
        if validate user then some user else none

/-- Header strings of the header row. -/
def headerOf (ws : List Row) (headerRowNum : Nat) : List String :=
  (ws.getD (headerRowNum - 1) []).map cellHeaderStr

/-- `parse_excel_users` from `excel_parsing.py`.  The fallible
`load_workbook`/`wb.active` step is modelled by the `load` argument
(`.error` for an open/parse exception, `.ok none` for a missing active
sheet); `uuidGen` models `uuid.uuid4()` generation, one fresh token per
data row. -/
def parse_excel_users (load : Except String (Option (List Row)))
    (validate : User → Bool) (uuidGen : Nat → String) : List User :=
  match load with
  | .error _ => []
  | .ok none => []
  | .ok (some ws) =>
    let hdrN := detect_header_row ws
    match detect_email_column ws hdrN with
    | none => []
    | some emailIdx =>
      let nameIdx := detect_name_column ws (some emailIdx) hdrN
      let hometownIdx := nameIdx.map (· + 1)
      let skip1 := [emailIdx]
      let skip2 := match nameIdx with
        | some i => skip1 ++ [i]
        | none => skip1
      let skip3 := match hometownIdx with
        | some i => skip2 ++ [i]
        | none => skip2
      let dateCols := detect_date_columns ws skip3 hdrN
      let header := headerOf ws hdrN
      let cols : DetectedCols := {
        emailIdx := emailIdx
        nameIdx := nameIdx
        hometownIdx := hometownIdx
        effIdx := dateCols.1
        expIdx := dateCols.2
        discordIdx := detect_column_by_name header "discord"
        bricklinkIdx := detect_column_by_name header "bricklink" }
      ((ws.drop hdrN).enum).filterMap fun p =>
        extractRowUser cols validate (uuidGen p.1) p.2

/-! ### Reconciler (`commands/sync.py`)

The Keycloak client is a capability: returned ids, group resolution
and per-call failures (`KeycloakError`) are supplied as parameters. -/

/-- `PROTECTED_USERS` from `constants.py`. -/
def PROTECTED_USERS : List String :=
  ["admin", "service-account-emmet-cli-client"]

/-- A Keycloak account dict, projected to the fields `sync.py` reads. -/
structure KCUser where
  id : Option String := none
  username : Option String := none
  email : Option String := none
  enabled : Bool := true
  emailVerified : Bool := false
  firstName : Option String := none
  lastName : Option String := none
  attributes : List (String × List String) := []
  deriving DecidableEq, Repr, Inhabited

/-- Python dict assignment `d[k] = v` on an insertion-ordered
association list: replace in place, or append a fresh key. -/
def assocSet {β : Type} : List (String × β) → String → β → List (String × β)
  | [], k, v => [(k, v)]
  | (k', v') :: rest, k, v =>
    if k' = k then (k', v) :: rest else (k', v') :: assocSet rest k v

/-- `attrs.get(k, [None])[0] if attrs.get(k) else None`: the first
element of the attribute's value list, when the key is present with a
nonempty list. -/
def attrFirst (attrs : List (String × List String)) (k : String) :
    Option String :=
  match attrs.lookup k with
  | some (x :: _) => some x
  | _ => none

/-- One entry of the `changes` list: field name, existing value, new
value (the field-level diff reported for an update). -/
abbrev Change := String × Option String × Option String

/-- The `changes` list computed by `update_existing_user`
(lines 77-100), in source order. -/
def computeChanges (existing : KCUser) (user : User) : List Change :=
  (if existing.email ≠ user.email
   then [("email", existing.email, user.email)] else []) ++
  (if attrFirst existing.attributes "fullName" ≠ user.fullName
   then [("fullName", attrFirst existing.attributes "fullName",
          user.fullName)] else []) ++
  (if attrFirst existing.attributes "hometown" ≠ user.hometown
   then [("hometown", attrFirst existing.attributes "hometown",
          user.hometown)] else []) ++
  (if attrFirst existing.attributes "effectiveDate" ≠ user.effectiveDate
   then [("effectiveDate", attrFirst existing.attributes "effectiveDate",
          user.effectiveDate)] else []) ++
  (if attrFirst existing.attributes "expirationDate" ≠ user.expirationDate
   then [("expirationDate", attrFirst existing.attributes "expirationDate",
          user.expirationDate)] else []) ++
  (if attrFirst existing.attributes "discord" ≠ user.discord
   then [("discord", attrFirst existing.attributes "discord",
          user.discord)] else []) ++
  (if attrFirst existing.attributes "bricklink" ≠ user.bricklink
   then [("bricklink", attrFirst existing.attributes "bricklink",
          user.bricklink)] else []) ++
  (if pyTruthy existing.firstName = false ∧ pyTruthy user.firstName = true
   then [("firstName", existing.firstName, user.firstName)] else []) ++
  (if pyTruthy existing.lastName = false ∧ pyTruthy user.lastName = true
   then [("lastName", existing.lastName, user.lastName)] else [])

/-- The `update_payload` dict built by `update_existing_user`
(lines 117-138). -/
structure UpdatePayload where
  email : Option String
  firstName : Option String
  lastName : Option String
  attributes : List (String × List String)
  deriving DecidableEq, Repr

/-- Lines 117-138 of `sync.py`: attributes are a copy of the existing
map, each roster field written only when truthy; first/last name keep
the existing value when it is truthy. -/
def update_payload (existing : KCUser) (user : User) : UpdatePayload :=
  let a0 := existing.attributes
  let a1 := if pyTruthy user.fullName
    then assocSet a0 "fullName" [user.fullName.getD ""] else a0
  let a2 := if pyTruthy user.hometown
    then assocSet a1 "hometown" [user.hometown.getD ""] else a1
  let a3 := if pyTruthy user.effectiveDate
    then assocSet a2 "effectiveDate" [user.effectiveDate.getD ""] else a2
  let a4 := if pyTruthy user.expirationDate
    then assocSet a3 "expirationDate" [user.expirationDate.getD ""] else a3
  let a5 := if pyTruthy user.discord
    then assocSet a4 "discord" [user.discord.getD ""] else a4
  let a6 := if pyTruthy user.bricklink
    then assocSet a5 "bricklink" [user.bricklink.getD ""] else a5
  { email := user.email
    firstName := if pyTruthy existing.firstName
      then existing.firstName else user.firstName
    lastName := if pyTruthy existing.lastName
      then existing.lastName else user.lastName
    attributes := a6 }

/-- A provider call issued by the reconciler (reads included). -/
inductive ProviderOp where
  | createUser (u : User)
  | updateUser (id : String) (p : UpdatePayload)
  | disableUser (id : String)
  | getGroups (search : String)
  | groupAdd (userId : String) (groupId : Option String)
  deriving DecidableEq, Repr

/-- A reconciliation decision, as reported by `click.echo` (dry run)
or `logger.info` (live run). -/
inductive Decision where
  | create (username : String) (email : Option String)
  | update (username : Option String) (email : Option String)
      (changes : List Change)
  | upToDate (username : Option String) (email : Option String)
  | disable (username : Option String) (email : Option String)
  deriving DecidableEq, Repr

/-- Observable outcome of one reconciler action: the decisions
reported, the provider calls issued, and whether a `KeycloakError`
escaped to the sync loop's `except` handler. -/
structure StepOut where
  decisions : List Decision := []
  calls : List ProviderOp := []
  failed : Bool := false
  deriving DecidableEq, Repr, Inhabited

/-- Which provider calls raise `KeycloakError`. -/
abbrev FailOracle := ProviderOp → Bool

/-- `update_existing_user` from `sync.py`.  The decision (and its
field diff) is computed and reported before any call; the provider
call happens only live, with a truthy id, and its failure escapes. -/
def update_existing_user (dry : Bool) (fo : FailOracle)
    (existing : KCUser) (user : User) : StepOut :=
  let changes := computeChanges existing user
  if changes ≠ [] then
    let d := Decision.update existing.username user.email changes
    if dry then { decisions := [d] }
    else if pyTruthy existing.id then
      let op := ProviderOp.updateUser (existing.id.getD "")
        (update_payload existing user)
      { decisions := [d], calls := [op], failed := fo op }
    else { decisions := [d] }
  else { decisions := [Decision.upToDate existing.username user.email] }

/-- The per-group body of `create_new_user`'s group loop: resolve the
group by name and add the user; `KeycloakError` is caught per group. -/
def groupAddCalls (fo : FailOracle)
    (resolveGroup : String → Option (Option String)) (newId : String)
    (g : String) : List ProviderOp :=
  let gop := ProviderOp.getGroups g
  if fo gop then [gop]
  else
    match resolveGroup g with
    | some gid => [gop, ProviderOp.groupAdd newId gid]
    | none => [gop]

/-- `create_new_user` from `sync.py`.  `newIdOf` models the id
returned by `create_user`; `resolveGroup` models the group found by
name (with its possibly missing id). -/
def create_new_user (dry : Bool) (fo : FailOracle) (groups : List String)
    (newIdOf : User → Option String)
    (resolveGroup : String → Option (Option String)) (user : User) :
    StepOut :=
  let d := Decision.create user.username user.email
  if dry then { decisions := [d] }
  else
    let op := ProviderOp.createUser user
    if fo op then { decisions := [d], calls := [op], failed := true }
    else
      let newId := newIdOf user
      if pyTruthy newId && !groups.isEmpty then
        { decisions := [d]
          calls := op :: groups.foldr
            (fun g acc => groupAddCalls fo resolveGroup (newId.getD "") g ++ acc)
            [] }
      else { decisions := [d], calls := [op] }

/-- `disable_user` from `sync.py`: the disable call's failure is
caught inside the function itself. -/
def disable_user (dry : Bool) (_fo : FailOracle) (kc : KCUser) : StepOut :=
  let d := Decision.disable kc.username kc.email
  if dry then { decisions := [d] }
  else if pyTruthy kc.id then
    { decisions := [d], calls := [ProviderOp.disableUser (kc.id.getD "")] }
  else { decisions := [d] }

/-- The `keycloak_users_by_email` dict: accounts keyed by truthy
email, last account winning on duplicates. -/
def buildByEmail (kcUsers : List KCUser) : List (String × KCUser) :=
  kcUsers.foldl
    (fun m kc =>
      match kc.email with
      | some e => if e ≠ "" then assocSet m e kc else m
      | none => m)
    []

/-- The body of the sync loop (lines 360-379) for one roster record:
skip on missing username or email, otherwise update or create, any
`KeycloakError` being caught by the loop's `except` (recorded in
`failed`). -/
def stepUser (dry : Bool) (fo : FailOracle) (groups : List String)
    (newIdOf : User → Option String)
    (resolveGroup : String → Option (Option String))
    (byEmail : List (String × KCUser)) (user : User) : StepOut :=
  if user.username = "" then {}
  else if !pyTruthy user.email then {}
  else
    match byEmail.lookup (user.email.getD "") with
    | some existing => update_existing_user dry fo existing user
    | none => create_new_user dry fo groups newIdOf resolveGroup user

/-- The sync loop over the roster, in roster order.  The `except`
inside the loop body means each record yields an outcome and the loop
always advances to the next record. -/
def syncUserLoop (dry : Bool) (fo : FailOracle) (groups : List String)
    (newIdOf : User → Option String)
    (resolveGroup : String → Option (Option String))
    (byEmail : List (String × KCUser)) : List User → List StepOut
  | [] => []
  | u :: rest =>
    stepUser dry fo groups newIdOf resolveGroup byEmail u ::
      syncUserLoop dry fo groups newIdOf resolveGroup byEmail rest

/-- `excel_emails` (line 384): the truthy roster emails. -/
def excelEmails (excelUsers : List User) : List String :=
  excelUsers.filterMap fun u =>
    match u.email with
    | some e => if e ≠ "" then some e else none
    | none => none

/-- The accounts reaching `disable_user` in the disable phase
(lines 385-405): not matched by a truthy roster email, email not in
the protected list, username not "admin", and email truthy. -/
def disablePhaseTargets (excelUsers : List User) (kcUsers : List KCUser) :
    List KCUser :=
  kcUsers.filter fun kc =>
    !(pyTruthy kc.email && decide ((kc.email.getD "") ∈ excelEmails excelUsers)) &&
    !(pyTruthy kc.email && decide ((kc.email.getD "") ∈ PROTECTED_USERS)) &&
    !(kc.username == some "admin") &&
    pyTruthy kc.email

/-- The observable behaviour of one `sync` run after the provider
account list has been fetched: all decisions reported and all provider
calls issued, in order.  `emailFilter` is the `--email` option;
`INITIAL_GROUPS` (imported by `sync.py` but absent from the
`constants.py` revision under `src/`) is the `groups` parameter. -/
def syncPlan (dry : Bool) (fo : FailOracle) (groups : List String)
    (newIdOf : User → Option String)
    (resolveGroup : String → Option (Option String))
    (emailFilter : Option String) (excelUsers0 : List User)
    (kcUsers : List KCUser) : List Decision × List ProviderOp :=
  if excelUsers0 = [] then ([], [])
  else
    let excelUsers := match emailFilter with
      | none => excelUsers0
      | some e => excelUsers0.filter fun u => u.email == some e
    if excelUsers = [] then ([], [])
    else
      let byEmail := buildByEmail kcUsers
      let outs := syncUserLoop dry fo groups newIdOf resolveGroup byEmail
        excelUsers
      let userDecisions := outs.foldr (fun o acc => o.decisions ++ acc) []
      let userCalls := outs.foldr (fun o acc => o.calls ++ acc) []
      match emailFilter with
      | some _ => (userDecisions, userCalls)
      | none =>
        let douts := (disablePhaseTargets excelUsers kcUsers).map
          (disable_user dry fo)
        (userDecisions ++ douts.foldr (fun o acc => o.decisions ++ acc) [],
         userCalls ++ douts.foldr (fun o acc => o.calls ++ acc) [])

/-! ### Derived helper definitions and concrete inputs used by the
claim theorems, witnesses and counterexamples -/

/-- The CLI tool's own service account: its username is in
`PROTECTED_USERS` but its email is a normal address. -/
def svcAccount : KCUser :=
  { id := some "u1"
    username := some "service-account-emmet-cli-client"
    email := some "svc@example.com" }

/-- A plain account used by the C10 witness. -/
def plainAccount : KCUser :=
  { id := some "u", username := some "x", email := some "a@b.fi" }

/-- The failure oracle of the C6 witness: the create call for the
first record raises `KeycloakError`. -/
def foW : FailOracle := fun op =>
  match op with
  | .createUser u => u.username == "a"
  | _ => false

/-- First roster record of the C6 witness. -/
def uA : User := { username := "a", email := some "a@x.fi" }

/-- Second roster record of the C6 witness. -/
def uB : User := { username := "b", email := some "b@x.fi" }

/-- Distinct elements of a list in order of first occurrence. -/
def firstOccs : List Nat → List Nat
  | [] => []
  | k :: rest => k :: (firstOccs rest).filter (fun x => decide (x ≠ k))

/-- Tie worksheet: column 1 first matches in data row 1, column 0
first matches in data row 2; the counts tie at one each. -/
def wsTie : List Row :=
  [[], [none, some (.str "a@b.fi")], [some (.str "c@d.fi"), none]]

/-- Name-detector tie worksheet for the C5 witness. -/
def wsNameTie : List Row :=
  [[], [none, some (.str "Ada Lovelace")], [some (.str "Bob Smith"), none]]

/-- Rate worksheet: one data row, both cells email-shaped (both
columns at a 100% rate). -/
def wsRate : List Row :=
  [[some (.str "h")], [some (.str "a@b.fi"), some (.str "c@d.fi")]]

/-- Dominant-column worksheet for the C3 witness. -/
def wsDom : List Row :=
  [[some (.str "h")], [some (.str "a@b.fi"), some (.str "x")]]

/-! ### Claim C9: name splitting -/

/-- Claim C9: for every captured (trimmed) name string, splitting on
whitespace yields: 0 tokens → firstName and lastName both absent;
exactly 1 token → it becomes firstName and lastName is absent; 2 or
more tokens → the first token becomes firstName, the last token
becomes lastName, middle tokens discarded. -/
theorem parse_name_field_spec (name : String) (hst : pyStrip name = name) :
    (pySplit name = [] → parse_name_field name = (none, none)) ∧
    (∀ t, pySplit name = [t] → parse_name_field name = (some t, none)) ∧
    (∀ t u rest, pySplit name = t :: u :: rest →
      parse_name_field name =
        (some t, some ((u :: rest).getLast (List.cons_ne_nil u rest)))) := by
  unfold parse_name_field
  rw [hst]
  by_cases h0 : name = ""
  · subst h0
    have hnil : pySplit "" = [] := rfl
    refine ⟨fun _ => rfl, fun t ht => ?_, fun t u rest ht => ?_⟩
    · rw [hnil] at ht; exact List.noConfusion ht
    · rw [hnil] at ht; exact List.noConfusion ht
  · simp only [if_neg h0]
    exact ⟨fun h => by rw [h], fun t h => by rw [h],
      fun t u rest h => by rw [h]⟩

/-- Witness for C9 at a three-token name. -/
theorem parse_name_field_spec_w :
    parse_name_field "Ada Byron Lovelace" = (some "Ada", some "Lovelace") := by
  have h := (parse_name_field_spec "Ada Byron Lovelace" (by decide)).2.2
    "Ada" "Byron" ["Lovelace"] (by decide)
  simpa using h

/-! ### Claims C1 and C10: the disable phase -/

/-- Claim C1: evaluation at the failing input.  The account's username
is in the configured protected list, it is absent from the (empty)
roster, yet the disable phase selects it for disabling, because
`sync.py` line 394 checks only the account's *email* against
`PROTECTED_USERS` (documented in `constants.py` as a list of protected
*usernames*). -/
theorem protected_username_still_disabled :
    svcAccount.username = some "service-account-emmet-cli-client" ∧
    "service-account-emmet-cli-client" ∈ PROTECTED_USERS ∧
    disablePhaseTargets [] [svcAccount] = [svcAccount] := by decide

/-- Claim C10: an account reaching `disable_user` in the disable phase
always has a truthy (present and non-empty) email; accounts with
absent or empty email are never disabled. -/
theorem disable_requires_truthy_email (excelUsers : List User)
    (kcUsers : List KCUser) (kc : KCUser)
    (h : kc ∈ disablePhaseTargets excelUsers kcUsers) :
    pyTruthy kc.email = true := by
  unfold disablePhaseTargets at h
  have hmem := List.mem_filter.mp h
  have hp := hmem.2
  simp only [Bool.and_eq_true] at hp
  exact hp.2

/-- Witness for C10. -/
theorem disable_requires_truthy_email_w :
    pyTruthy plainAccount.email = true :=
  disable_requires_truthy_email [] [plainAccount] plainAccount (by decide)

/-! ### Claim C7: the roster loader's failure behaviour -/

/-- Claim C7: the roster loader returns an empty roster (rather than
raising) when the workbook cannot be opened or parsed, when there is
no active worksheet, or when no email column is detected. -/
theorem parse_excel_users_failure (validate : User → Bool)
    (uuidGen : Nat → String) :
    (∀ e, parse_excel_users (.error e) validate uuidGen = []) ∧
    parse_excel_users (.ok none) validate uuidGen = [] ∧
    (∀ ws, detect_email_column ws (detect_header_row ws) = none →
      parse_excel_users (.ok (some ws)) validate uuidGen = []) := by
  refine ⟨fun _ => rfl, rfl, fun ws h => ?_⟩
  simp only [parse_excel_users]
  rw [h]

/-- Witness for C7: a worksheet with no email-shaped cells. -/
theorem parse_excel_users_failure_w :
    parse_excel_users (.error "boom") (fun _ => true) (fun _ => "u") = [] ∧
    parse_excel_users (.ok none) (fun _ => true) (fun _ => "u") = [] ∧
    parse_excel_users (.ok (some [[some (.str "x")], [some (.str "y")]]))
      (fun _ => true) (fun _ => "u") = [] := by
  refine ⟨(parse_excel_users_failure _ _).1 "boom",
    (parse_excel_users_failure _ _).2.1,
    (parse_excel_users_failure (fun _ => true) (fun _ => "u")).2.2
      [[some (.str "x")], [some (.str "y")]] (by decide)⟩

/-! ### Claim C4: date normalization -/

theorem isDigit_digitChar_lt : ∀ n < 10, (Nat.digitChar n).isDigit = true := by
  decide

theorem natDecimalDigitsAux_all_digits :
    ∀ (f n : Nat), n < f →
      ((natDecimalDigitsAux f n).all Char.isDigit) = true := by
  intro f
  induction f with
  | zero => intro n h; omega
  | succ f ih =>
    intro n h
    unfold natDecimalDigitsAux
    by_cases h10 : n < 10
    · simp [h10, isDigit_digitChar_lt n h10]
    · have hrec : n / 10 < f := by omega
      have hmod : n % 10 < 10 := by omega
      simp [h10, List.all_append, ih _ hrec, isDigit_digitChar_lt _ hmod]

theorem natDecimalDigitsAux_length :
    ∀ (f n : Nat), n < f → n < 10000 →
      (natDecimalDigitsAux f n).length =
        (if n < 10 then 1 else if n < 100 then 2
         else if n < 1000 then 3 else 4) := by
  intro f
  induction f with
  | zero => intro n h _; omega
  | succ f ih =>
    intro n h h4
    unfold natDecimalDigitsAux
    by_cases h10 : n < 10
    · simp [h10]
    · have hrec : n / 10 < f := by omega
      have h4' : n / 10 < 10000 := by omega
      simp only [h10, if_false, List.length_append, List.length_cons,
        List.length_nil, ih _ hrec h4']
      split_ifs <;> omega

theorem pad2_data_spec (n : Nat) (h2 : n ≤ 31) :
    ((pad2 n).data.all Char.isDigit = true) ∧ (pad2 n).data.length = 2 := by
  unfold pad2
  by_cases h10 : n < 10
  · simp only [h10, if_true]
    exact ⟨by simp [isDigit_digitChar_lt n h10], rfl⟩
  · simp only [h10, if_false]
    unfold pyNatRepr natDecimalDigits
    refine ⟨natDecimalDigitsAux_all_digits _ _ (by omega), ?_⟩
    rw [natDecimalDigitsAux_length _ _ (by omega) (by omega)]
    simp only [h10, if_false]
    have : n < 100 := by omega
    simp [this]

theorem year_data_spec (n : Nat) (h1 : 1000 ≤ n) (h2 : n ≤ 9999) :
    ((pyNatRepr n).data.all Char.isDigit = true) ∧
      (pyNatRepr n).data.length = 4 := by
  unfold pyNatRepr natDecimalDigits
  refine ⟨natDecimalDigitsAux_all_digits _ _ (by omega), ?_⟩
  rw [natDecimalDigitsAux_length _ _ (by omega) (by omega)]
  have ha : ¬ n < 10 := by omega
  have hb : ¬ n < 100 := by omega
  have hc : ¬ n < 1000 := by omega
  simp [ha, hb, hc]

theorem takeWhile_all_stop {p : Char → Bool} :
    ∀ (l : List Char) (c : Char) (r : List Char),
      l.all p = true → p c = false → (l ++ c :: r).takeWhile p = l := by
  intro l
  induction l with
  | nil => intro c r _ hc; simp [List.takeWhile_cons, hc]
  | cons a l ih =>
    intro c r hall hc
    simp only [List.all_cons, Bool.and_eq_true] at hall
    simp [List.takeWhile_cons, hall.1, ih _ _ hall.2 hc]

theorem ddmmyyyyShape_parts (D M Y : List Char)
    (hD : D.all Char.isDigit = true) (hD1 : 1 ≤ D.length) (hD2 : D.length ≤ 2)
    (hM : M.all Char.isDigit = true) (hM1 : 1 ≤ M.length) (hM2 : M.length ≤ 2)
    (hY : Y.all Char.isDigit = true) (hY4 : Y.length = 4) :
    ddmmyyyyShape ⟨D ++ '.' :: (M ++ '.' :: Y)⟩ = true := by
  have hdot : ('.' : Char).isDigit = false := by decide
  have hdata : (⟨D ++ '.' :: (M ++ '.' :: Y)⟩ : String).data
      = D ++ '.' :: (M ++ '.' :: Y) := rfl
  have hTW1 : (D ++ '.' :: (M ++ '.' :: Y)).takeWhile Char.isDigit = D :=
    takeWhile_all_stop D '.' (M ++ '.' :: Y) hD hdot
  have hdrop1 : (D ++ '.' :: (M ++ '.' :: Y)).drop D.length
      = '.' :: (M ++ '.' :: Y) := List.drop_left D ('.' :: (M ++ '.' :: Y))
  have hTW2 : (M ++ '.' :: Y).takeWhile Char.isDigit = M :=
    takeWhile_all_stop M '.' Y hM hdot
  have hdrop2 : (M ++ '.' :: Y).drop M.length = '.' :: Y :=
    List.drop_left M ('.' :: Y)
  simp only [ddmmyyyyShape, hdata, hTW1, hdrop1, List.drop_succ_cons,
    List.drop_zero, hTW2, hdrop2, List.headD_cons]
  simp [hD1, hD2, hM1, hM2, hY4, hY]

/-- Claim C4 (amended): a date field sourced from a native datetime
cell is formatted as `dd.mm.yyyy` (a valid shape for calendar dates);
a date field sourced from a string cell is the trimmed string as-is —
no dd.mm.yyyy normalization or validation is applied to it. -/
theorem date_field_forms (row : Row) (i : Nat) (d : PyDateTime)
    (s : String) :
    (row.getD i none = some (.date d) → i < row.length →
      extractDateField row (some i) = some (formatDDMMYYYY d)) ∧
    (1 ≤ d.day → d.day ≤ 31 → 1 ≤ d.month → d.month ≤ 12 →
      1000 ≤ d.year → d.year ≤ 9999 →
      ddmmyyyyShape (formatDDMMYYYY d) = true) ∧
    (row.getD i none = some (.str s) → s ≠ "" → i < row.length →
      extractDateField row (some i) = some (pyStrip s)) := by
  refine ⟨?_, ?_, ?_⟩
  · intro hcell hlt
    simp only [extractDateField]
    rw [if_pos hlt, hcell]
  · intro _ hd2 _ hm2 hy1 hy2
    have hsplit : formatDDMMYYYY d =
        ⟨(pad2 d.day).data ++ '.' ::
          ((pad2 d.month).data ++ '.' :: (pyNatRepr d.year).data)⟩ := by
      apply String.ext
      simp [formatDDMMYYYY, String.data_append]
    rw [hsplit]
    have hday := pad2_data_spec d.day hd2
    have hmonth := pad2_data_spec d.month (by omega)
    have hyear := year_data_spec d.year hy1 hy2
    exact ddmmyyyyShape_parts _ _ _ hday.1 (by omega) (by omega)
      hmonth.1 (by omega) (by omega) hyear.1 hyear.2
  · intro hcell hne hlt
    simp only [extractDateField]
    rw [if_pos hlt, hcell]
    simp [hne]

/-- Counterexample for C4 as stated: a string date cell flows through
trimmed but unnormalized, so the extracted field is not in
`dd.mm.yyyy` form. -/
theorem date_string_not_normalized :
    extractDateField [some (.str " 2024-01-05 ")] (some 0)
      = some "2024-01-05" ∧
    ddmmyyyyShape "2024-01-05" = false := by decide

/-- Witness for the amended C4. -/
theorem date_field_forms_w :
    extractDateField [some (.date ⟨2024, 1, 5⟩)] (some 0)
      = some "05.01.2024" ∧
    ddmmyyyyShape (formatDDMMYYYY ⟨2024, 1, 5⟩) = true ∧
    extractDateField [some (.str " 1.1.25 ")] (some 0) = some "1.1.25" := by
  refine ⟨?_, ?_, ?_⟩
  · have h := (date_field_forms [some (.date ⟨2024, 1, 5⟩)] 0 ⟨2024, 1, 5⟩
      "x").1 rfl (by decide)
    rw [h]; decide
  · exact (date_field_forms [] 0 ⟨2024, 1, 5⟩ "x").2.1 (by decide) (by decide)
      (by decide) (by decide) (by decide) (by decide)
  · have h := (date_field_forms [some (.str " 1.1.25 ")] 0 ⟨2024, 1, 5⟩
      " 1.1.25 ").2.2 rfl (by decide) (by decide)
    rw [h]; decide

/-! ### Claim C8: update never blanks provider-held values -/

theorem lookup_assocSet_self {β : Type} :
    ∀ (l : List (String × β)) (k : String) (v : β),
      (assocSet l k v).lookup k = some v := by
  intro l k v
  induction l with
  | nil => simp [assocSet, List.lookup]
  | cons p rest ih =>
    obtain ⟨k', v'⟩ := p
    by_cases h : k' = k
    · subst h; simp [assocSet, List.lookup]
    · have hb : (k == k') = false :=
        beq_eq_false_iff_ne.mpr (fun hh => h hh.symm)
      simp [assocSet, h, List.lookup, hb, ih]

theorem lookup_assocSet_ne {β : Type} :
    ∀ (l : List (String × β)) (k k' : String) (v : β), k' ≠ k →
      (assocSet l k v).lookup k' = l.lookup k' := by
  intro l k k' v hne
  induction l with
  | nil =>
    have hb : (k' == k) = false := beq_eq_false_iff_ne.mpr hne
    simp [assocSet, List.lookup, hb]
  | cons p rest ih =>
    obtain ⟨k₀, v₀⟩ := p
    by_cases h : k₀ = k
    · subst h
      have hb : (k' == k₀) = false := beq_eq_false_iff_ne.mpr hne
      simp [assocSet, List.lookup, hb]
    · by_cases h3 : k' = k₀
      · have hb : (k' == k₀) = true := beq_iff_eq.mpr h3
        simp [assocSet, h, List.lookup, hb]
      · have hb : (k' == k₀) = false := beq_eq_false_iff_ne.mpr h3
        simp [assocSet, h, List.lookup, hb, ih]

theorem lookup_setIf {β : Type} (c : Prop) [Decidable c]
    (l : List (String × β)) (k k' : String) (v : β) (h : k' ≠ k) :
    ((if c then assocSet l k v else l).lookup k') = l.lookup k' := by
  split
  · exact lookup_assocSet_ne l k k' v h
  · rfl

/-- Lookup characterization of the attribute map built by
`update_existing_user`: each of the six roster-sourced keys is
overwritten exactly when the roster value is truthy; every other entry
of the existing map is untouched. -/
theorem lookup_update_payload_attr (existing : KCUser) (user : User)
    (k : String) :
    (update_payload existing user).attributes.lookup k =
      (if k = "fullName" ∧ pyTruthy user.fullName = true
        then some [user.fullName.getD ""]
      else if k = "hometown" ∧ pyTruthy user.hometown = true
        then some [user.hometown.getD ""]
      else if k = "effectiveDate" ∧ pyTruthy user.effectiveDate = true
        then some [user.effectiveDate.getD ""]
      else if k = "expirationDate" ∧ pyTruthy user.expirationDate = true
        then some [user.expirationDate.getD ""]
      else if k = "discord" ∧ pyTruthy user.discord = true
        then some [user.discord.getD ""]
      else if k = "bricklink" ∧ pyTruthy user.bricklink = true
        then some [user.bricklink.getD ""]
      else existing.attributes.lookup k) := by
  simp only [update_payload]
  by_cases h1 : pyTruthy user.fullName = true <;>
  by_cases h2 : pyTruthy user.hometown = true <;>
  by_cases h3 : pyTruthy user.effectiveDate = true <;>
  by_cases h4 : pyTruthy user.expirationDate = true <;>
  by_cases h5 : pyTruthy user.discord = true <;>
  by_cases h6 : pyTruthy user.bricklink = true <;>
  · simp only [h1, h2, h3, h4, h5, h6, if_true, if_false]
    by_cases k1 : k = "fullName" <;>
    by_cases k2 : k = "hometown" <;>
    by_cases k3 : k = "effectiveDate" <;>
    by_cases k4 : k = "expirationDate" <;>
    by_cases k5 : k = "discord" <;>
    by_cases k6 : k = "bricklink" <;>
    simp_all [lookup_assocSet_self, lookup_assocSet_ne]

/-- Claim C8: an update never blanks an existing provider-held value.
First and last name flow from the roster only when the provider value
is empty; each of the six optional attributes is overwritten only when
the roster value is non-empty, and is otherwise preserved; attribute
keys outside the six are always preserved; no present attribute entry
is ever removed. -/
theorem update_payload_frame (existing : KCUser) (user : User) :
    ((update_payload existing user).firstName =
      (if pyTruthy existing.firstName = true then existing.firstName
       else user.firstName)) ∧
    ((update_payload existing user).lastName =
      (if pyTruthy existing.lastName = true then existing.lastName
       else user.lastName)) ∧
    (pyTruthy user.fullName = true →
      (update_payload existing user).attributes.lookup "fullName"
        = some [user.fullName.getD ""]) ∧
    (pyTruthy user.fullName = false →
      (update_payload existing user).attributes.lookup "fullName"
        = existing.attributes.lookup "fullName") ∧
    (pyTruthy user.hometown = true →
      (update_payload existing user).attributes.lookup "hometown"
        = some [user.hometown.getD ""]) ∧
    (pyTruthy user.hometown = false →
      (update_payload existing user).attributes.lookup "hometown"
        = existing.attributes.lookup "hometown") ∧
    (pyTruthy user.effectiveDate = true →
      (update_payload existing user).attributes.lookup "effectiveDate"
        = some [user.effectiveDate.getD ""]) ∧
    (pyTruthy user.effectiveDate = false →
      (update_payload existing user).attributes.lookup "effectiveDate"
        = existing.attributes.lookup "effectiveDate") ∧
    (pyTruthy user.expirationDate = true →
      (update_payload existing user).attributes.lookup "expirationDate"
        = some [user.expirationDate.getD ""]) ∧
    (pyTruthy user.expirationDate = false →
      (update_payload existing user).attributes.lookup "expirationDate"
        = existing.attributes.lookup "expirationDate") ∧
    (pyTruthy user.discord = true →
      (update_payload existing user).attributes.lookup "discord"
        = some [user.discord.getD ""]) ∧
    (pyTruthy user.discord = false →
      (update_payload existing user).attributes.lookup "discord"
        = existing.attributes.lookup "discord") ∧
    (pyTruthy user.bricklink = true →
      (update_payload existing user).attributes.lookup "bricklink"
        = some [user.bricklink.getD ""]) ∧
    (pyTruthy user.bricklink = false →
      (update_payload existing user).attributes.lookup "bricklink"
        = existing.attributes.lookup "bricklink") ∧
    (∀ k, k ∉ (["fullName", "hometown", "effectiveDate", "expirationDate",
        "discord", "bricklink"] : List String) →
      (update_payload existing user).attributes.lookup k
        = existing.attributes.lookup k) ∧
    (∀ k, (existing.attributes.lookup k).isSome = true →
      ((update_payload existing user).attributes.lookup k).isSome = true) := by
  refine ⟨rfl, rfl, ?_, ?_, ?_, ?_, ?_, ?_, ?_, ?_, ?_, ?_, ?_, ?_, ?_, ?_⟩
  · intro h; rw [lookup_update_payload_attr]; simp [h]
  · intro h; rw [lookup_update_payload_attr]; simp [h]
  · intro h; rw [lookup_update_payload_attr]; simp [h]
  · intro h; rw [lookup_update_payload_attr]; simp [h]
  · intro h; rw [lookup_update_payload_attr]; simp [h]
  · intro h; rw [lookup_update_payload_attr]; simp [h]
  · intro h; rw [lookup_update_payload_attr]; simp [h]
  · intro h; rw [lookup_update_payload_attr]; simp [h]
  · intro h; rw [lookup_update_payload_attr]; simp [h]
  · intro h; rw [lookup_update_payload_attr]; simp [h]
  · intro h; rw [lookup_update_payload_attr]; simp [h]
  · intro h; rw [lookup_update_payload_attr]; simp [h]
  · intro k hk
    simp only [List.mem_cons, List.not_mem_nil, or_false] at hk
    push_neg at hk
    obtain ⟨n1, n2, n3, n4, n5, n6⟩ := hk
    rw [lookup_update_payload_attr]
    simp [n1, n2, n3, n4, n5, n6]
  · intro k hk
    rw [lookup_update_payload_attr]
    split_ifs <;> simp [hk]

/-- Witness for C8, applied at one pair with provider-held names and a
truthy roster hometown (kept names, overwritten attribute) and at one
pair with an empty provider first name and an absent roster hometown
(roster name written, existing attribute preserved). -/
theorem update_payload_frame_w :
    (update_payload
      { firstName := some "Eve", lastName := some "Held",
        attributes := [("hometown", ["Oulu"])] }
      { username := "u", firstName := some "Ada", lastName := some "L",
        hometown := some "Espoo" }).firstName = some "Eve" ∧
    (update_payload
      { firstName := some "Eve", lastName := some "Held",
        attributes := [("hometown", ["Oulu"])] }
      { username := "u", firstName := some "Ada", lastName := some "L",
        hometown := some "Espoo" }).attributes.lookup "hometown"
      = some ["Espoo"] ∧
    (update_payload { firstName := some "", attributes := [("hometown", ["Oulu"])] }
      { username := "u", firstName := some "Ada" }).firstName = some "Ada" ∧
    (update_payload { firstName := some "", attributes := [("hometown", ["Oulu"])] }
      { username := "u", firstName := some "Ada" }).attributes.lookup "hometown"
      = some ["Oulu"] := by
  refine ⟨?_, ?_, ?_, ?_⟩
  · rw [(update_payload_frame _ _).1]; decide
  · rw [(update_payload_frame _ _).2.2.2.2.1 (by decide)]; decide
  · rw [(update_payload_frame _ _).1]; decide
  · rw [(update_payload_frame _ _).2.2.2.2.2.1 (by decide)]; decide

/-! ### Claim C2: dry-run equivalence -/

theorem update_existing_user_dry (fo fo' : FailOracle) (e : KCUser)
    (u : User) :
    (update_existing_user true fo e u).decisions
      = (update_existing_user false fo' e u).decisions ∧
    (update_existing_user true fo e u).calls = [] := by
  refine ⟨?_, ?_⟩ <;>
    (simp only [update_existing_user]; split_ifs <;> rfl)

theorem create_new_user_dry (fo fo' : FailOracle) (groups : List String)
    (newIdOf : User → Option String)
    (resolveGroup : String → Option (Option String)) (u : User) :
    (create_new_user true fo groups newIdOf resolveGroup u).decisions
      = (create_new_user false fo' groups newIdOf resolveGroup u).decisions ∧
    (create_new_user true fo groups newIdOf resolveGroup u).calls = [] := by
  refine ⟨?_, ?_⟩ <;>
    (simp only [create_new_user]; split_ifs <;> rfl)

theorem disable_user_dry (fo fo' : FailOracle) (kc : KCUser) :
    (disable_user true fo kc).decisions
      = (disable_user false fo' kc).decisions ∧
    (disable_user true fo kc).calls = [] := by
  refine ⟨?_, ?_⟩ <;>
    (simp only [disable_user]; split_ifs <;> rfl)

theorem stepUser_dry (fo fo' : FailOracle) (groups : List String)
    (newIdOf : User → Option String)
    (resolveGroup : String → Option (Option String))
    (byEmail : List (String × KCUser)) (u : User) :
    (stepUser true fo groups newIdOf resolveGroup byEmail u).decisions
      = (stepUser false fo' groups newIdOf resolveGroup byEmail u).decisions ∧
    (stepUser true fo groups newIdOf resolveGroup byEmail u).calls = [] := by
  unfold stepUser
  split_ifs
  · exact ⟨rfl, rfl⟩
  · exact ⟨rfl, rfl⟩
  · cases (byEmail.lookup (u.email.getD "")) with
    | some e => exact update_existing_user_dry fo fo' e u
    | none => exact create_new_user_dry fo fo' groups newIdOf resolveGroup u

theorem syncUserLoop_dry (fo fo' : FailOracle) (groups : List String)
    (newIdOf : User → Option String)
    (resolveGroup : String → Option (Option String))
    (byEmail : List (String × KCUser)) :
    ∀ users : List User,
      ((syncUserLoop true fo groups newIdOf resolveGroup byEmail users).foldr
          (fun o acc => o.decisions ++ acc) []
        = (syncUserLoop false fo' groups newIdOf resolveGroup byEmail
            users).foldr (fun o acc => o.decisions ++ acc) []) ∧
      ((syncUserLoop true fo groups newIdOf resolveGroup byEmail users).foldr
          (fun o acc => o.calls ++ acc) [] = []) := by
  intro users
  induction users with
  | nil => exact ⟨rfl, rfl⟩
  | cons u rest ih =>
    simp only [syncUserLoop, List.foldr_cons]
    constructor
    · rw [(stepUser_dry fo fo' groups newIdOf resolveGroup byEmail u).1, ih.1]
    · rw [(stepUser_dry fo fo' groups newIdOf resolveGroup byEmail u).2, ih.2]
      rfl

theorem disableMap_dry (fo fo' : FailOracle) :
    ∀ targets : List KCUser,
      ((targets.map (disable_user true fo)).foldr
          (fun o acc => o.decisions ++ acc) []
        = (targets.map (disable_user false fo')).foldr
            (fun o acc => o.decisions ++ acc) []) ∧
      ((targets.map (disable_user true fo)).foldr
          (fun o acc => o.calls ++ acc) [] = []) := by
  intro targets
  induction targets with
  | nil => exact ⟨rfl, rfl⟩
  | cons kc rest ih =>
    simp only [List.map_cons, List.foldr_cons]
    constructor
    · rw [(disable_user_dry fo fo' kc).1, ih.1]
    · rw [(disable_user_dry fo fo' kc).2, ih.2]
      rfl

/-- Claim C2: for every roster, provider account list, configured
group list, provider behaviour and email filter, a dry run reports
exactly the same decisions (create, update with its field diff,
up-to-date, disable) as a live run — even a live run with arbitrary
per-call failures — and issues zero provider calls. -/
theorem dry_run_equiv (fo fo' : FailOracle) (groups : List String)
    (newIdOf : User → Option String)
    (resolveGroup : String → Option (Option String))
    (emailFilter : Option String) (excelUsers : List User)
    (kcUsers : List KCUser) :
    (syncPlan true fo groups newIdOf resolveGroup emailFilter excelUsers
        kcUsers).1
      = (syncPlan false fo' groups newIdOf resolveGroup emailFilter
          excelUsers kcUsers).1 ∧
    (syncPlan true fo groups newIdOf resolveGroup emailFilter excelUsers
        kcUsers).2 = [] := by
  unfold syncPlan
  by_cases h0 : excelUsers = []
  · simp [h0]
  · simp only [if_neg h0]
    cases emailFilter with
    | none =>
      simp only [if_neg h0]
      constructor
      · rw [(syncUserLoop_dry fo fo' groups newIdOf resolveGroup
              (buildByEmail kcUsers) excelUsers).1,
            (disableMap_dry fo fo' (disablePhaseTargets excelUsers kcUsers)).1]
      · rw [(syncUserLoop_dry fo fo' groups newIdOf resolveGroup
              (buildByEmail kcUsers) excelUsers).2,
            (disableMap_dry fo fo' (disablePhaseTargets excelUsers kcUsers)).2]
        rfl
    | some e =>
      by_cases hf : excelUsers.filter (fun u => u.email == some e) = []
      · simp [hf]
      · simp only [if_neg hf]
        exact ⟨(syncUserLoop_dry fo fo' groups newIdOf resolveGroup
            (buildByEmail kcUsers) _).1,
          (syncUserLoop_dry fo fo' groups newIdOf resolveGroup
            (buildByEmail kcUsers) _).2⟩

/-! ### Claim C6: per-record failure isolation -/

theorem syncUserLoop_eq_map (dry : Bool) (fo : FailOracle)
    (groups : List String) (newIdOf : User → Option String)
    (resolveGroup : String → Option (Option String))
    (byEmail : List (String × KCUser)) :
    ∀ users : List User,
      syncUserLoop dry fo groups newIdOf resolveGroup byEmail users
        = users.map (stepUser dry fo groups newIdOf resolveGroup byEmail) := by
  intro users
  induction users with
  | nil => rfl
  | cons u rest ih => simp [syncUserLoop, ih]

/-- Claim C6: if the provider call for the roster record at position
`n` fails (its outcome records a caught `KeycloakError`), the loop
still yields one outcome per roster record, and the outcome at every
later position `m` is exactly the outcome of processing record `m` on
its own — one record's failure never aborts or alters the rest of the
batch. -/
theorem sync_loop_failure_isolated (dry : Bool) (fo : FailOracle)
    (groups : List String) (newIdOf : User → Option String)
    (resolveGroup : String → Option (Option String))
    (byEmail : List (String × KCUser)) (users : List User) (n : Nat)
    (hfail : ((syncUserLoop dry fo groups newIdOf resolveGroup byEmail
        users).getD n default).failed = true) :
    (syncUserLoop dry fo groups newIdOf resolveGroup byEmail users).length
      = users.length ∧
    ∀ m u, n < m → users.get? m = some u →
      (syncUserLoop dry fo groups newIdOf resolveGroup byEmail users).get? m
        = some (stepUser dry fo groups newIdOf resolveGroup byEmail u) := by
  rw [syncUserLoop_eq_map]
  refine ⟨List.length_map _ _, fun m u _ hget => ?_⟩
  rw [List.get?_map, hget]
  rfl

/-- Witness for C6: with the create call of record 0 failing, record 1
is still processed, with its own outcome. -/
theorem sync_loop_failure_isolated_w :
    (syncUserLoop false foW [] (fun _ => none) (fun _ => none) []
      [uA, uB]).length = 2 ∧
    (syncUserLoop false foW [] (fun _ => none) (fun _ => none) []
        [uA, uB]).get? 1
      = some (stepUser false foW [] (fun _ => none) (fun _ => none) [] uB) := by
  have h := sync_loop_failure_isolated false foW [] (fun _ => none)
    (fun _ => none) [] [uA, uB] 0 (by decide)
  exact ⟨h.1, h.2 1 uB (by decide) (by decide)⟩

/-! ### Claims C3 and C5: detector scoring and tie-breaking

The detectors fold the row-major scan into an insertion-ordered count
dict and take `max` over it.  The lemmas below characterize the result
as "first key, in first-match scan order, attaining the maximal
count". -/

theorem count_rowMatchCols (pred : Nat → Cell → Bool) (c : Nat) :
    ∀ (row : Row) (i : Nat), pred c none = false →
      (rowMatchCols pred row i).count c =
        if i ≤ c ∧ pred c (row.getD (c - i) none) = true then 1 else 0 := by
  intro row
  induction row with
  | nil =>
    intro i hnone
    simp [rowMatchCols, List.getD, hnone]
  | cons cell rest ih =>
    intro i hnone
    rcases Nat.lt_trichotomy i c with h | h | h
    · have hsub : c - i = (c - (i + 1)) + 1 := by omega
      have hgd : (cell :: rest).getD (c - i) none
          = rest.getD (c - (i + 1)) none := by
        rw [hsub]; exact List.getD_cons_succ
      have h1 : i ≤ c := by omega
      have h2 : i + 1 ≤ c := by omega
      have hbeq : (i == c) = false := by
        simp only [beq_eq_false_iff_ne]; omega
      simp only [rowMatchCols]
      rw [hgd]
      by_cases hp : pred i cell = true
      · rw [if_pos hp, List.count_cons, ih (i + 1) hnone]
        simp [h1, h2, hbeq]
      · rw [if_neg hp, ih (i + 1) hnone]
        simp [h1, h2]
    · subst h
      have hno : ¬ (i + 1 ≤ i) := by omega
      have hgd0 : (cell :: rest).getD (i - i) none = cell := by
        rw [Nat.sub_self]; rfl
      simp only [rowMatchCols]
      rw [hgd0]
      by_cases hp : pred i cell = true
      · rw [if_pos hp, List.count_cons, ih (i + 1) hnone]
        simp [hno, hp]
      · rw [if_neg hp, ih (i + 1) hnone]
        simp [hno, hp]
    · have h1 : ¬ (i ≤ c) := by omega
      have h2 : ¬ (i + 1 ≤ c) := by omega
      have hbeq : (i == c) = false := by
        simp only [beq_eq_false_iff_ne]; omega
      simp only [rowMatchCols]
      by_cases hp : pred i cell = true
      · rw [if_pos hp, List.count_cons, ih (i + 1) hnone]
        simp [h1, h2, hbeq]
      · rw [if_neg hp, ih (i + 1) hnone]
        simp [h1, h2]

theorem count_matchSeq (pred : Nat → Cell → Bool) (c : Nat)
    (hnone : pred c none = false) :
    ∀ rows : List Row,
      (matchSeq pred rows).count c
        = rows.countP (fun row => pred c (row.getD c none)) := by
  intro rows
  induction rows with
  | nil => rfl
  | cons row rest ih =>
    simp only [matchSeq, List.foldr_cons, List.count_append] at ih ⊢
    rw [count_rowMatchCols pred c row 0 hnone, List.countP_cons, ih]
    simp [Nat.zero_le, Nat.add_comm]

theorem bump_keys : ∀ (l : List (Nat × Nat)) (k : Nat),
    (bump l k).map Prod.fst =
      if k ∈ l.map Prod.fst then l.map Prod.fst
      else l.map Prod.fst ++ [k] := by
  intro l k
  induction l with
  | nil => simp [bump]
  | cons p rest ih =>
    obtain ⟨k', v⟩ := p
    by_cases h : k' = k
    · subst h; simp [bump]
    · have hne : ¬ (k = k') := fun hh => h hh.symm
      simp only [bump, if_neg h, List.map_cons]
      rw [ih]
      by_cases hm : k ∈ rest.map Prod.fst
      · simp [hm, hne]
      · simp [hm, hne]

theorem mem_firstOccs : ∀ (seq : List Nat) (x : Nat),
    x ∈ firstOccs seq ↔ x ∈ seq := by
  intro seq x
  induction seq with
  | nil => simp [firstOccs]
  | cons k rest ih =>
    by_cases hxk : x = k
    · subst hxk; simp [firstOccs]
    · simp [firstOccs, List.mem_filter, hxk, ih]

theorem firstOccs_cons (k : Nat) (rest : List Nat) :
    firstOccs (k :: rest)
      = k :: (firstOccs rest).filter (fun x => decide (x ≠ k)) := rfl

theorem firstOccs_nodup : ∀ seq : List Nat, (firstOccs seq).Nodup := by
  intro seq
  induction seq with
  | nil => simp [firstOccs]
  | cons k rest ih =>
    rw [firstOccs_cons]
    rw [List.nodup_cons]
    refine ⟨?_, ih.filter _⟩
    simp [List.mem_filter]

theorem firstOccs_append_single : ∀ (seq : List Nat) (k : Nat),
    firstOccs (seq ++ [k]) =
      if k ∈ seq then firstOccs seq else firstOccs seq ++ [k] := by
  intro seq k
  induction seq with
  | nil => simp [firstOccs]
  | cons a rest ih =>
    rw [List.cons_append, firstOccs_cons, ih, firstOccs_cons]
    by_cases hm : k ∈ rest
    · have hmem : k ∈ a :: rest := List.mem_cons_of_mem a hm
      simp [hm, hmem]
    · by_cases hak : k = a
      · subst hak
        simp [hm, List.filter_append]
      · have h2 : k ∉ a :: rest := by simp [hak, hm]
        simp [hm, h2, List.filter_append, hak]

theorem toCounts_append_single (seq : List Nat) (k : Nat) :
    toCounts (seq ++ [k]) = bump (toCounts seq) k := by
  simp [toCounts, List.foldl_append]

theorem bump_mem : ∀ (l : List (Nat × Nat)) (k : Nat) (p : Nat × Nat),
    (l.map Prod.fst).Nodup → p ∈ bump l k →
      (p ∈ l ∧ p.1 ≠ k) ∨ (∃ v, (k, v) ∈ l ∧ p = (k, v + 1)) ∨
        (p = (k, 1) ∧ k ∉ l.map Prod.fst) := by
  intro l k p
  induction l with
  | nil =>
    intro _ hp
    simp only [bump, List.mem_singleton] at hp
    exact Or.inr (Or.inr ⟨hp, by simp⟩)
  | cons q rest ih =>
    obtain ⟨k₀, v₀⟩ := q
    intro hnd hp
    rw [List.map_cons, List.nodup_cons] at hnd
    have hk₀ : k₀ ∉ rest.map Prod.fst := hnd.1
    have hnd' : (rest.map Prod.fst).Nodup := hnd.2
    by_cases h : k₀ = k
    · subst h
      simp only [bump, if_pos rfl] at hp
      rcases List.mem_cons.mp hp with he | ht
      · exact Or.inr (Or.inl ⟨v₀, List.mem_cons_self _ _, he⟩)
      · refine Or.inl ⟨List.mem_cons_of_mem _ ht, fun hpk => ?_⟩
        exact hk₀ (hpk ▸ List.mem_map_of_mem Prod.fst ht)
    · simp only [bump, if_neg h] at hp
      rcases List.mem_cons.mp hp with he | ht
      · refine Or.inl ⟨by simp [he], ?_⟩
        rw [he]; exact h
      · rcases ih hnd' ht with h1 | h2 | h3
        · exact Or.inl ⟨List.mem_cons_of_mem _ h1.1, h1.2⟩
        · obtain ⟨v, hv, hpv⟩ := h2
          exact Or.inr (Or.inl ⟨v, List.mem_cons_of_mem _ hv, hpv⟩)
        · refine Or.inr (Or.inr ⟨h3.1, ?_⟩)
          simp only [List.map_cons, List.mem_cons]
          push_neg
          exact ⟨fun hh => h hh.symm, h3.2⟩

theorem toCounts_spec : ∀ seq : List Nat,
    (toCounts seq).map Prod.fst = firstOccs seq ∧
    ∀ p : Nat × Nat, p ∈ toCounts seq → p.2 = seq.count p.1 := by
  intro seq
  induction seq using List.reverseRecOn with
  | nil => exact ⟨rfl, by simp [toCounts]⟩
  | append_singleton seq k ih =>
    obtain ⟨ihk, ihv⟩ := ih
    have hnd : ((toCounts seq).map Prod.fst).Nodup := by
      rw [ihk]; exact firstOccs_nodup seq
    rw [toCounts_append_single]
    constructor
    · rw [bump_keys, ihk, firstOccs_append_single]
      simp [mem_firstOccs]
    · intro p hp
      rcases bump_mem (toCounts seq) k p hnd hp with h1 | h2 | h3
      · rw [List.count_append]
        have hv := ihv p h1.1
        have hz : List.count p.1 [k] = 0 := by
          rw [List.count_eq_zero]
          simpa using h1.2
        omega
      · obtain ⟨v, hv, hpv⟩ := h2
        have hvv := ihv (k, v) hv
        rw [hpv]
        simp only []
        rw [List.count_append]
        simp at hvv ⊢
        omega
      · obtain ⟨hpk, hnm⟩ := h3
        have hkseq : k ∉ seq := fun hh =>
          hnm (by rw [ihk]; exact (mem_firstOccs seq k).mpr hh)
        rw [hpk]
        simp only []
        rw [List.count_append, List.count_eq_zero.mpr hkseq]
        simp

theorem foldBest_spec : ∀ (rest : List (Nat × Nat)) (kv r : Nat × Nat),
    rest.foldl (fun best p => if best.2 < p.2 then p else best) kv = r →
    ∃ l₁ l₂, kv :: rest = l₁ ++ r :: l₂ ∧
      (∀ p ∈ l₁, p.2 < r.2) ∧ (∀ p ∈ l₂, p.2 ≤ r.2) := by
  intro rest
  induction rest with
  | nil =>
    intro kv r hr
    simp only [List.foldl_nil] at hr
    subst hr
    exact ⟨[], [], rfl, by simp, by simp⟩
  | cons q rest ih =>
    intro kv r hr
    simp only [List.foldl_cons] at hr
    by_cases h : kv.2 < q.2
    · rw [if_pos h] at hr
      obtain ⟨l₁, l₂, heq, hlt, hle⟩ := ih q r hr
      refine ⟨kv :: l₁, l₂, by rw [List.cons_append, ← heq], ?_, hle⟩
      intro p hp
      rcases List.mem_cons.mp hp with hpe | hpl
      · subst hpe
        cases l₁ with
        | nil =>
          simp only [List.nil_append] at heq
          have hq := (List.cons.injEq _ _ _ _).mp heq
          rw [← hq.1]
          exact h
        | cons a l₁' =>
          simp only [List.cons_append] at heq
          have hq := (List.cons.injEq _ _ _ _).mp heq
          have ha := hlt a (List.mem_cons_self _ _)
          rw [← hq.1] at ha
          omega
      · exact hlt p hpl
    · rw [if_neg h] at hr
      obtain ⟨l₁, l₂, heq, hlt, hle⟩ := ih kv r hr
      cases l₁ with
      | nil =>
        simp only [List.nil_append] at heq
        have hq := (List.cons.injEq _ _ _ _).mp heq
        refine ⟨[], q :: rest, ?_, by simp, ?_⟩
        · simp only [List.nil_append]
          rw [← hq.1]
        · intro p hp
          rcases List.mem_cons.mp hp with hpe | hpl
          · subst hpe
            rw [← hq.1]
            omega
          · rw [hq.2] at hpl
            exact hle p hpl
      | cons a l₁' =>
        simp only [List.cons_append] at heq
        have hq := (List.cons.injEq _ _ _ _).mp heq
        refine ⟨kv :: q :: l₁', l₂, ?_, ?_, hle⟩
        · simp only [List.cons_append]
          rw [hq.2]
        · intro p hp
          have hkva : kv.2 < r.2 := by
            have ha := hlt a (List.mem_cons_self _ _)
            rw [← hq.1] at ha
            exact ha
          rcases List.mem_cons.mp hp with hpe | hpl
          · subst hpe; exact hkva
          · rcases List.mem_cons.mp hpl with hpe2 | hpl2
            · subst hpe2; omega
            · exact hlt p (List.mem_cons_of_mem _ hpl2)

theorem maxKeyFirst_spec (l : List (Nat × Nat)) (k : Nat)
    (h : maxKeyFirst l = some k) :
    ∃ l₁ v l₂, l = l₁ ++ (k, v) :: l₂ ∧ (∀ p ∈ l₁, p.2 < v) ∧
      (∀ p ∈ l₂, p.2 ≤ v) := by
  cases l with
  | nil => simp [maxKeyFirst] at h
  | cons kv rest =>
    simp only [maxKeyFirst, Option.some.injEq] at h
    obtain ⟨l₁, l₂, heq, hlt, hle⟩ := foldBest_spec rest kv _ rfl
    refine ⟨l₁,
      (rest.foldl (fun best p => if best.2 < p.2 then p else best) kv).2,
      l₂, ?_, hlt, hle⟩
    have hx : ((rest.foldl (fun best p => if best.2 < p.2 then p else best)
        kv).1,
        (rest.foldl (fun best p => if best.2 < p.2 then p else best) kv).2)
        = rest.foldl (fun best p => if best.2 < p.2 then p else best) kv :=
      Prod.mk.eta
    rw [heq, ← hx, h]

theorem firstOccs_pairwise : ∀ seq : List Nat,
    (firstOccs seq).Pairwise
      (fun a b => seq.indexOf a < seq.indexOf b) := by
  intro seq
  induction seq with
  | nil => simp [firstOccs]
  | cons k rest ih =>
    rw [firstOccs_cons]
    refine List.Pairwise.cons ?_ ?_
    · intro b hb
      have hbk : b ≠ k := by
        have := (List.mem_filter.mp hb).2
        simpa using this
      rw [List.indexOf_cons_self, List.indexOf_cons_ne rest hbk.symm]
      exact Nat.succ_pos _
    · have hsub : ((firstOccs rest).filter
          (fun x => decide (x ≠ k))).Sublist (firstOccs rest) :=
        List.filter_sublist _
      have hpw := List.Pairwise.sublist hsub ih
      refine List.Pairwise.imp_of_mem ?_ hpw
      intro a b ha hb hr
      have hak : a ≠ k := by
        have := (List.mem_filter.mp ha).2
        simpa using this
      have hbk : b ≠ k := by
        have := (List.mem_filter.mp hb).2
        simpa using this
      rw [List.indexOf_cons_ne rest hak.symm,
        List.indexOf_cons_ne rest hbk.symm]
      exact Nat.succ_lt_succ hr

/-- The detectors' dict-argmax returns the column whose count is
maximal, breaking ties in favour of the column whose first matching
cell comes earliest in the scan order. -/
theorem maxKeyFirst_toCounts (seq : List Nat) (c : Nat)
    (hc : c ∈ seq)
    (hmax : ∀ k ∈ seq, seq.count k ≤ seq.count c)
    (hfirst : ∀ k ∈ seq, seq.count k = seq.count c →
      seq.indexOf c ≤ seq.indexOf k) :
    maxKeyFirst (toCounts seq) = some c := by
  obtain ⟨hkeys, hvals⟩ := toCounts_spec seq
  have hcidx : c ∈ (toCounts seq).map Prod.fst := by
    rw [hkeys]; exact (mem_firstOccs seq c).mpr hc
  obtain ⟨pc, hpc, hpc1⟩ := List.mem_map.mp hcidx
  have hpc2 : pc.2 = seq.count c := by rw [hvals pc hpc, hpc1]
  have hnil : toCounts seq ≠ [] := List.ne_nil_of_mem hpc
  obtain ⟨kr, hkrs⟩ : ∃ kr, maxKeyFirst (toCounts seq) = some kr := by
    cases htc : toCounts seq with
    | nil => exact absurd htc hnil
    | cons kv rest => exact ⟨_, rfl⟩
  rw [hkrs]
  obtain ⟨l₁, v, l₂, heq, hlt, hle⟩ := maxKeyFirst_spec _ _ hkrs
  have hkrmem : (kr, v) ∈ toCounts seq := by
    rw [heq]; exact List.mem_append_right _ (List.mem_cons_self _ _)
  have hv : v = seq.count kr := by simpa using hvals _ hkrmem
  have hkrseq : kr ∈ seq := by
    have hmm : kr ∈ (toCounts seq).map Prod.fst :=
      List.mem_map_of_mem Prod.fst hkrmem
    rw [hkeys] at hmm
    exact (mem_firstOccs seq kr).mp hmm
  rw [heq] at hpc
  rcases List.mem_append.mp hpc with h1 | h2
  · exfalso
    have hplt := hlt pc h1
    rw [hpc2, hv] at hplt
    have := hmax kr hkrseq
    omega
  · rcases List.mem_cons.mp h2 with he | ht
    · rw [← hpc1, he]
    · exfalso
      have hlev : seq.count c ≤ seq.count kr := by
        have := hle pc ht
        rw [hpc2, hv] at this
        exact this
      have htie : seq.count kr = seq.count c :=
        Nat.le_antisymm (hmax kr hkrseq) hlev
      have hidx1 : seq.indexOf c ≤ seq.indexOf kr := hfirst kr hkrseq htie
      have hpw := firstOccs_pairwise seq
      rw [← hkeys, heq] at hpw
      simp only [List.map_append, List.map_cons] at hpw
      have hpw2 := (List.pairwise_append.mp hpw).2.1
      have hcm : c ∈ l₂.map Prod.fst := by
        rw [← hpc1]; exact List.mem_map_of_mem _ ht
      have hidx2 := (List.pairwise_cons.mp hpw2).1 c hcm
      omega

/-- Claim C5 (amended): when columns tie for the maximal match count
in the email or name detector, the detector returns the tied column
whose first matching cell occurs earliest in the row-major scan of the
sampled rows (Python dict insertion order) — not necessarily the
smallest column index.  The smallest tied index wins only when it also
matches earliest (for example when the tied columns first match within
the same row). -/
theorem detect_tiebreak_first_match :
    (∀ (ws : List Row) (hdr c : Nat),
      c ∈ emailMatchSeq ws hdr →
      (∀ k ∈ emailMatchSeq ws hdr,
        (emailMatchSeq ws hdr).count k ≤ (emailMatchSeq ws hdr).count c) →
      (∀ k ∈ emailMatchSeq ws hdr,
        (emailMatchSeq ws hdr).count k = (emailMatchSeq ws hdr).count c →
        (emailMatchSeq ws hdr).indexOf c ≤ (emailMatchSeq ws hdr).indexOf k) →
      detect_email_column ws hdr = some c) ∧
    (∀ (ws : List Row) (eIdx : Option Nat) (hdr c : Nat),
      c ∈ nameMatchSeq ws eIdx hdr →
      (∀ k ∈ nameMatchSeq ws eIdx hdr,
        (nameMatchSeq ws eIdx hdr).count k
          ≤ (nameMatchSeq ws eIdx hdr).count c) →
      (∀ k ∈ nameMatchSeq ws eIdx hdr,
        (nameMatchSeq ws eIdx hdr).count k
          = (nameMatchSeq ws eIdx hdr).count c →
        (nameMatchSeq ws eIdx hdr).indexOf c
          ≤ (nameMatchSeq ws eIdx hdr).indexOf k) →
      detect_name_column ws eIdx hdr = some c) := by
  constructor
  · intro ws hdr c hc hmax hfirst
    exact maxKeyFirst_toCounts _ c hc hmax hfirst
  · intro ws eIdx hdr c hc hmax hfirst
    exact maxKeyFirst_toCounts _ c hc hmax hfirst

/-- Counterexample for C5 as stated: both columns tie at one match,
yet the detector returns column 1 (first insertion into the count
dict), not the smallest tied index 0. -/
theorem detect_tiebreak_cex :
    (emailMatchSeq wsTie 1).count 0 = 1 ∧
    (emailMatchSeq wsTie 1).count 1 = 1 ∧
    detect_email_column wsTie 1 = some 1 := by decide

/-- Witness for the amended C5 on both detectors. -/
theorem detect_tiebreak_first_match_w :
    detect_email_column wsTie 1 = some 1 ∧
    detect_name_column wsNameTie none 1 = some 1 :=
  ⟨detect_tiebreak_first_match.1 wsTie 1 1 (by decide) (by decide)
      (by decide),
    detect_tiebreak_first_match.2 wsNameTie none 1 1 (by decide) (by decide)
      (by decide)⟩

/-- Counterexample for C3 as stated: column 1's sampled cells are
100% email-shaped and no other column reaches a higher rate (column 0
ties), yet the detector returns column 0, not column 1. -/
theorem email_rate_cex :
    9 * (sampledRows wsRate 1).length ≤
      10 * (sampledRows wsRate 1).countP
        (fun row => emailCellMatch (row.getD 1 none)) ∧
    (sampledRows wsRate 1).countP
        (fun row => emailCellMatch (row.getD 0 none))
      ≤ (sampledRows wsRate 1).countP
        (fun row => emailCellMatch (row.getD 1 none)) ∧
    detect_email_column wsRate 1 = some 0 := by decide

/-- Claim C3 (amended): if the sample is nonempty, column `c`'s
sampled cells are at least 90% valid email shapes, and every other
column's rate (match count over the same sample) is strictly lower,
then the email detector returns `c`. -/
theorem detect_email_column_dominant (ws : List Row) (hdr c : Nat)
    (hne : sampledRows ws hdr ≠ [])
    (hrate : 9 * (sampledRows ws hdr).length ≤
      10 * (sampledRows ws hdr).countP
        (fun row => emailCellMatch (row.getD c none)))
    (hdom : ∀ c', c' ≠ c →
      (sampledRows ws hdr).countP
          (fun row => emailCellMatch (row.getD c' none)) <
        (sampledRows ws hdr).countP
          (fun row => emailCellMatch (row.getD c none))) :
    detect_email_column ws hdr = some c := by
  have hcount : ∀ c', (emailMatchSeq ws hdr).count c'
      = (sampledRows ws hdr).countP
          (fun row => emailCellMatch (row.getD c' none)) := fun c' =>
    count_matchSeq _ c' rfl (sampledRows ws hdr)
  have hn1 : 1 ≤ (sampledRows ws hdr).length := List.length_pos.mpr hne
  have hcpos : 0 < (emailMatchSeq ws hdr).count c := by
    rw [hcount]; omega
  have hcmem : c ∈ emailMatchSeq ws hdr := List.count_pos_iff_mem.mp hcpos
  show maxKeyFirst (toCounts (emailMatchSeq ws hdr)) = some c
  refine maxKeyFirst_toCounts _ c hcmem ?_ ?_
  · intro k _
    by_cases hkc : k = c
    · subst hkc; exact Nat.le_refl _
    · rw [hcount, hcount]
      exact Nat.le_of_lt (hdom k hkc)
  · intro k _ htie
    by_cases hkc : k = c
    · subst hkc; exact Nat.le_refl _
    · exfalso
      rw [hcount, hcount] at htie
      exact absurd htie (Nat.ne_of_lt (hdom k hkc))

/-- Witness for the amended C3. -/
theorem detect_email_column_dominant_w :
    detect_email_column wsDom 1 = some 0 := by
  refine detect_email_column_dominant wsDom 1 0 (by decide) (by decide) ?_
  intro c' hc'
  match c' with
  | 0 => exact absurd rfl hc'
  | 1 => decide
  | n + 2 =>
    have hrow : sampledRows wsDom 1
        = [[some (.str "a@b.fi"), some (.str "x")]] := by decide
    rw [hrow]
    have hgd : ([some (CellValue.str "a@b.fi"),
        some (CellValue.str "x")] : Row).getD (n + 2) none = none :=
      List.getD_eq_default _ _ (by simp)
    simp [List.countP_cons, hgd, emailCellMatch]
    decide

end Emmet
